import Mathlib

/-
Shallow embedding of the payment metering engine in
`core/meterer/meterer.go` (package `meterer`).

Go's `uint64` values are represented as `Nat` kept below `2 ^ 64`, with an
explicit `% u64` wherever the Go arithmetic can wrap; `int64` and `big.Int`
values are represented as `Int`.  The external stores (DynamoDB-backed
`OffchainStore`) and the on-chain state are replaced by explicit state
passing, with Boolean flags injecting the failure of each fallible store
operation.  The state is restricted to a single account: bins are keyed by
period only, and the on-demand ledger is the one account's list of
`(cumulativePayment, numSymbols)` entries.
-/

namespace Meterer

/-- The modulus of Go's `uint64` arithmetic, `2 ^ 64`. -/
def u64 : Nat := 18446744073709551616

/-- Go's conversion `uint64(t)` of an `int64` value: the two's-complement
reinterpretation, i.e. the representative of `t` modulo `2 ^ 64`. -/
def toUint64 (t : Int) : Nat := (t % (u64 : Int)).toNat

/-- Go's conversion `int64(n)` of a `uint64` value: values at or above
`2 ^ 63` become negative. -/
def toInt64 (n : Nat) : Int :=
  if n % u64 < 9223372036854775808 then ((n % u64 : Nat) : Int)
  else ((n % u64 : Nat) : Int) - ((u64 : Nat) : Int)

/-- The two reasons `IncrementGlobalBinUsage` can fail: the store update
itself failed, or the new usage exceeded the global limit. -/
inductive GlobalBinError where
  | storeErr
  | usageOverflow
deriving DecidableEq

/-- The error outcomes of the metering engine, one constructor per distinct
`fmt.Errorf` site on the admission paths of `meterer.go`. -/
inductive MetererError where
  | chainReadErr
  | reservationInactive
  | quorumMismatch
  | invalidReservationPeriod
  | storeErr
  | binAlreadyFilled
  | overflowExceedsBinLimit
  | depositExceeded
  | insufficientIncrement
  | breakingInvariants
  | storeDeleteErr
  | globalRateLimited (e : GlobalBinError)
deriving DecidableEq

/-- The global on-chain parameters the engine reads through
`ChainPaymentState` (all `uint64`-valued except the quorum list). -/
structure ChainParams where
  minNumSymbols : Nat
  pricePerSymbol : Nat
  reservationWindow : Nat
  globalRatePeriodInterval : Nat
  globalSymbolsPerSecond : Nat
  onDemandQuorumNumbers : List Nat

/-- `core.PaymentMetadata`: the request header (account fixed, so only the
nanosecond timestamp and the cumulative payment remain). -/
structure PaymentMetadata where
  timestamp : Int
  cumulativePayment : Int

/-- `core.ReservedPayment`: the per-account reservation record. -/
structure ReservedPayment where
  symbolsPerSecond : Nat
  startTimestamp : Nat
  endTimestamp : Nat
  quorumNumbers : List Nat

/-- `core.OnDemandPayment`: the account's total on-chain deposit. -/
structure OnDemandPayment where
  cumulativePayment : Int

/-- The store state the on-demand path touches: the account's ledger of
`(cumulativePayment, numSymbols)` entries and the global period bins. -/
structure ODState where
  ledger : List (Int × Nat)
  globalBins : Nat → Nat

/-- The whole store state: the account's reservation period bins plus the
on-demand state. -/
structure MeterState where
  reservationBins : Nat → Nat
  ledger : List (Int × Nat)
  globalBins : Nat → Nat

/-- Modelled from the spec: `core.RoundUpDivide` (the generic ceiling
division helper is not part of the metering source); `⌈a / b⌉` computed as
`(a + b - 1) / b` in wrapping `uint64` arithmetic. -/
def RoundUpDivide (a b : Nat) : Nat := ((a + b - 1) % u64) / b

/-- `Meterer.SymbolsCharged`: the number of symbols charged for a request,
at least `minNumSymbols` and rounded up to a multiple of it, with an
explicit saturation to `math.MaxUint64` when the rounded value wrapped. -/
def SymbolsCharged (minNumSymbols numSymbols : Nat) : Nat :=
  if numSymbols ≤ minNumSymbols then minNumSymbols
  else
    let roundedUp := (RoundUpDivide numSymbols minNumSymbols * minNumSymbols) % u64
    if roundedUp < numSymbols then u64 - 1 else roundedUp

/-- `Meterer.PaymentCharged`: `big.Int` price of a request,
`SymbolsCharged(numSymbols) * int64(pricePerSymbol)` (the price is cast
through `int64` before entering the big-integer arithmetic). -/
def PaymentCharged (params : ChainParams) (numSymbols : Nat) : Int :=
  ((SymbolsCharged params.minNumSymbols numSymbols : Nat) : Int) * toInt64 params.pricePerSymbol

/-- `GetReservationPeriod`: `uint64(timestamp) / binInterval`, and `0` when
`binInterval = 0`.  There is no guard for negative timestamps: the `int64`
is reinterpreted as a `uint64`. -/
def GetReservationPeriod (timestamp : Int) (binInterval : Nat) : Nat :=
  if binInterval = 0 then 0
  else toUint64 timestamp / binInterval

/-- `GetReservationPeriodByNanosecond`: guards negative timestamps to `0`,
then divides the nanoseconds down to seconds.  The source performs the
nanosecond-to-second conversion through `time.Duration.Seconds`, which
returns a `float64`; it is modelled here as exact integer division. -/
def GetReservationPeriodByNanosecond (nanosecondTimestamp : Int) (binInterval : Nat) : Nat :=
  if nanosecondTimestamp < 0 then 0
  else GetReservationPeriod (nanosecondTimestamp / 1000000000) binInterval

/-- `Meterer.ValidateQuorum` as a Boolean: the header's quorum list is
non-empty and every element is among the allowed quorums. -/
def ValidateQuorum (headerQuorums allowedQuorums : List Nat) : Bool :=
  !headerQuorums.isEmpty && headerQuorums.all (fun q => allowedQuorums.contains q)

/-- Modelled from the spec: `core.ReservedPayment.IsActiveByNanosecond`
(not part of the metering source); true iff
`start ≤ ts_ns / 1e9 < end`. -/
def IsActiveByNanosecond (reservation : ReservedPayment) (timestampNs : Int) : Bool :=
  decide ((reservation.startTimestamp : Int) ≤ timestampNs / 1000000000) &&
  decide (timestampNs / 1000000000 < (reservation.endTimestamp : Int))

/-- `Meterer.ValidateReservationPeriod`: the request period must be the
current or the previous period (computed from `receivedAt.Unix()`), and lie
within the reservation's `[startPeriod, endPeriod)` window.  The
`currentReservationPeriod - 1` is `uint64` subtraction, hence the wrap. -/
def ValidateReservationPeriod (params : ChainParams) (reservation : ReservedPayment)
    (requestReservationPeriod : Nat) (receivedAtUnix : Int) : Bool :=
  let reservationWindow := params.reservationWindow
  let currentReservationPeriod := GetReservationPeriod receivedAtUnix reservationWindow
  let isCurrentOrPreviousPeriod :=
    requestReservationPeriod == currentReservationPeriod ||
    requestReservationPeriod == (currentReservationPeriod + u64 - 1) % u64
  let startPeriod := GetReservationPeriod (toInt64 reservation.startTimestamp) reservationWindow
  let endPeriod := GetReservationPeriod (toInt64 reservation.endTimestamp) reservationWindow
  let isWithinReservationWindow :=
    decide (startPeriod ≤ requestReservationPeriod) &&
    decide (requestReservationPeriod < endPeriod)
  if !isCurrentOrPreviousPeriod || !isWithinReservationWindow then false else true

/-- `Meterer.GetReservationBinLimit`:
`reservation.SymbolsPerSecond * reservationWindow` in `uint64`. -/
def GetReservationBinLimit (params : ChainParams) (reservation : ReservedPayment) : Nat :=
  (reservation.symbolsPerSecond * params.reservationWindow) % u64

/-- Modelled from the spec: `OffchainStore.UpdateReservationBin`, the
store's atomic add-and-fetch on a `uint64` period counter (single account),
with an injected failure flag; a failed update writes nothing. -/
def UpdateReservationBin (bins : Nat → Nat) (period delta : Nat) (fail : Bool) :
    Option (Nat × (Nat → Nat)) :=
  if fail then none
  else
    let newUsage := (bins period + delta) % u64
    some (newUsage, fun p => if p = period then newUsage else bins p)

/-- `Meterer.IncrementBinUsage`: add `symbolsCharged` to the request's
period bin, then decide between plain acceptance, `BinAlreadyFilled`,
a single-step overflow carry into `period + 2`, and
`OverflowExceedsBinLimit`.  Returns the error (if any) together with the
resulting bin state. -/
def IncrementBinUsage (params : ChainParams) (reservation : ReservedPayment)
    (symbolsCharged requestReservationPeriod : Nat) (bins : Nat → Nat)
    (primFail carryFail : Bool) : Option MetererError × (Nat → Nat) :=
  match UpdateReservationBin bins requestReservationPeriod symbolsCharged primFail with
  | none => (some .storeErr, bins)
  | some (newUsage, bins1) =>
    let usageLimit := GetReservationBinLimit params reservation
    if newUsage ≤ usageLimit then (none, bins1)
    else if usageLimit ≤ (newUsage + u64 - symbolsCharged) % u64 then
      (some .binAlreadyFilled, bins1)
    else if newUsage ≤ (2 * usageLimit) % u64 ∧
        (requestReservationPeriod + 2) % u64 ≤
          GetReservationPeriod (toInt64 reservation.endTimestamp) params.reservationWindow then
      match UpdateReservationBin bins1 ((requestReservationPeriod + 2) % u64)
          (newUsage - usageLimit) carryFail with
      | none => (some .storeErr, bins1)
      | some (_, bins2) => (none, bins2)
    else (some .overflowExceedsBinLimit, bins1)

/-- Modelled from the spec: `OffchainStore.UpdateGlobalBin`, the store's
atomic add-and-fetch on the global `uint64` period counter, with an
injected failure flag. -/
def UpdateGlobalBin (globalBins : Nat → Nat) (period delta : Nat) (fail : Bool) :
    Option (Nat × (Nat → Nat)) :=
  if fail then none
  else
    let newUsage := (globalBins period + delta) % u64
    some (newUsage, fun p => if p = period then newUsage else globalBins p)

/-- `Meterer.IncrementGlobalBinUsage`: add `symbolsCharged` to the global
bin of the received-at period and compare the new usage against
`globalSymbolsPerSecond * globalRatePeriodInterval`. -/
def IncrementGlobalBinUsage (params : ChainParams) (globalBins : Nat → Nat)
    (symbolsCharged : Nat) (receivedAtUnix : Int) (storeFail : Bool) :
    Option GlobalBinError × (Nat → Nat) :=
  let globalPeriod := GetReservationPeriod receivedAtUnix params.globalRatePeriodInterval
  match UpdateGlobalBin globalBins globalPeriod symbolsCharged storeFail with
  | none => (some .storeErr, globalBins)
  | some (newUsage, bins1) =>
    if (params.globalSymbolsPerSecond * params.globalRatePeriodInterval) % u64 < newUsage then
      (some .usageOverflow, bins1)
    else (none, bins1)

/-- Modelled from the spec: the largest ledger payment strictly below
`cp`, `0` when absent (`GetRelevantOnDemandRecords`, first component). -/
def prevRecord (ledger : List (Int × Nat)) (cp : Int) : Int :=
  match (ledger.filter (fun e => e.1 < cp)).map Prod.fst with
  | [] => 0
  | x :: xs => xs.foldl max x

/-- Modelled from the spec: the smallest ledger payment strictly above
`cp` together with its symbol count, `(0, 0)` when absent
(`GetRelevantOnDemandRecords`, second and third components). -/
def nextRecord (ledger : List (Int × Nat)) (cp : Int) : Int × Nat :=
  match ledger.filter (fun e => cp < e.1) with
  | [] => (0, 0)
  | e :: es => es.foldl (fun a b => if b.1 < a.1 then b else a) e

/-- Modelled from the spec: `OffchainStore.GetRelevantOnDemandRecords`,
the strict neighbors of `cp` in the account's ledger (zero when absent),
with an injected failure flag. -/
def GetRelevantOnDemandRecords (ledger : List (Int × Nat)) (cp : Int) (fail : Bool) :
    Option (Int × Int × Nat) :=
  if fail then none
  else some (prevRecord ledger cp, nextRecord ledger cp)

/-- Modelled from the spec: `OffchainStore.AddOnDemandPayment`, the ledger
insert; it fails cleanly on a duplicate cumulative payment or on an
injected store failure, and writes nothing when it fails. -/
def AddOnDemandPayment (ledger : List (Int × Nat)) (cp : Int) (symbolsCharged : Nat)
    (fail : Bool) : Option (List (Int × Nat)) :=
  if fail || ledger.any (fun e => e.1 == cp) then none
  else some ((cp, symbolsCharged) :: ledger)

/-- Modelled from the spec: `OffchainStore.RemoveOnDemandPayment`, the
idempotent ledger delete, with an injected failure flag. -/
def RemoveOnDemandPayment (ledger : List (Int × Nat)) (cp : Int) (fail : Bool) :
    Option (List (Int × Nat)) :=
  if fail then none
  else some (ledger.filter (fun e => e.1 != cp))

/-- `Meterer.ValidatePayment`: the on-demand admission check, in source
order — deposit bound, neighbor fetch, predecessor invariant, successor
invariant. -/
def ValidatePayment (params : ChainParams) (header : PaymentMetadata)
    (onDemandPayment : OnDemandPayment) (symbolsCharged : Nat)
    (ledger : List (Int × Nat)) (neighborsFail : Bool) : Option MetererError :=
  if onDemandPayment.cumulativePayment < header.cumulativePayment then
    some .depositExceeded
  else
    match GetRelevantOnDemandRecords ledger header.cumulativePayment neighborsFail with
    | none => some .storeErr
    | some (prevPmt, nextPmt, nextPmtNumSymbols) =>
      if header.cumulativePayment < prevPmt + PaymentCharged params symbolsCharged then
        some .insufficientIncrement
      else if nextPmt ≠ 0 ∧
          nextPmt < header.cumulativePayment + PaymentCharged params nextPmtNumSymbols then
        some .breakingInvariants
      else none

/-- `Meterer.ServeOnDemandRequest`: quorum fetch and check, payment
validation, ledger insert, global bin increment, and the compensating
ledger delete when the increment fails or overflows. -/
def ServeOnDemandRequest (params : ChainParams) (header : PaymentMetadata)
    (onDemandPayment : OnDemandPayment) (symbolsCharged : Nat)
    (headerQuorums : List Nat) (receivedAtUnix : Int) (st : ODState)
    (quorumFetchFail neighborsFail addFail globalFail removeFail : Bool) :
    Option MetererError × ODState :=
  if quorumFetchFail then (some .chainReadErr, st)
  else if !(ValidateQuorum headerQuorums params.onDemandQuorumNumbers) then
    (some .quorumMismatch, st)
  else
    match ValidatePayment params header onDemandPayment symbolsCharged st.ledger neighborsFail with
    | some e => (some e, st)
    | none =>
      match AddOnDemandPayment st.ledger header.cumulativePayment symbolsCharged addFail with
      | none => (some .storeErr, st)
      | some ledger1 =>
        match IncrementGlobalBinUsage params st.globalBins symbolsCharged receivedAtUnix globalFail with
        | (some ge, gbins1) =>
          match RemoveOnDemandPayment ledger1 header.cumulativePayment removeFail with
          | none => (some .storeDeleteErr, ⟨ledger1, gbins1⟩)
          | some ledger2 => (some (.globalRateLimited ge), ⟨ledger2, gbins1⟩)
        | (none, gbins1) => (none, ⟨ledger1, gbins1⟩)

/-- `Meterer.ServeReservationRequest`: activity check, quorum check, period
validation, then the bin increment. -/
def ServeReservationRequest (params : ChainParams) (header : PaymentMetadata)
    (reservation : ReservedPayment) (symbolsCharged : Nat)
    (headerQuorums : List Nat) (receivedAtUnix : Int) (bins : Nat → Nat)
    (primFail carryFail : Bool) : Option MetererError × (Nat → Nat) :=
  if !(IsActiveByNanosecond reservation header.timestamp) then
    (some .reservationInactive, bins)
  else if !(ValidateQuorum headerQuorums reservation.quorumNumbers) then
    (some .quorumMismatch, bins)
  else
    let requestReservationPeriod :=
      GetReservationPeriodByNanosecond header.timestamp params.reservationWindow
    if !(ValidateReservationPeriod params reservation requestReservationPeriod receivedAtUnix) then
      (some .invalidReservationPeriod, bins)
    else
      IncrementBinUsage params reservation symbolsCharged requestReservationPeriod bins
        primFail carryFail

/-- The reservation branch of `Meterer.MeterRequest`: reservation lookup,
then `ServeReservationRequest`; on success the charged symbols are
returned. -/
def MeterRequestReservationPath (params : ChainParams) (reservation : ReservedPayment)
    (header : PaymentMetadata) (numSymbols : Nat) (quorumNumbers : List Nat)
    (receivedAtUnix : Int) (st : MeterState)
    (resLookupFail primFail carryFail : Bool) : Except MetererError Nat × MeterState :=
  if resLookupFail then (.error .chainReadErr, st)
  else
    match ServeReservationRequest params header reservation
        (SymbolsCharged params.minNumSymbols numSymbols) quorumNumbers
        receivedAtUnix st.reservationBins primFail carryFail with
    | (some e, bins1) => (.error e, { st with reservationBins := bins1 })
    | (none, bins1) =>
      (.ok (SymbolsCharged params.minNumSymbols numSymbols), { st with reservationBins := bins1 })

/-- The on-demand branch of `Meterer.MeterRequest`: payment record lookup,
then `ServeOnDemandRequest`; on success the charged symbols are
returned. -/
def MeterRequestOnDemandPath (params : ChainParams) (onDemandPayment : OnDemandPayment)
    (header : PaymentMetadata) (numSymbols : Nat) (quorumNumbers : List Nat)
    (receivedAtUnix : Int) (st : MeterState)
    (odLookupFail quorumFetchFail neighborsFail addFail globalFail removeFail : Bool) :
    Except MetererError Nat × MeterState :=
  if odLookupFail then (.error .chainReadErr, st)
  else
    match ServeOnDemandRequest params header onDemandPayment
        (SymbolsCharged params.minNumSymbols numSymbols) quorumNumbers
        receivedAtUnix ⟨st.ledger, st.globalBins⟩
        quorumFetchFail neighborsFail addFail globalFail removeFail with
    | (some e, od1) =>
      (.error e, { st with ledger := od1.ledger, globalBins := od1.globalBins })
    | (none, od1) =>
      (.ok (SymbolsCharged params.minNumSymbols numSymbols),
        { st with ledger := od1.ledger, globalBins := od1.globalBins })

/-- `Meterer.MeterRequest`: route on `CumulativePayment.Sign() == 0`
between the reservation path and the on-demand path. -/
def MeterRequest (params : ChainParams) (reservation : ReservedPayment)
    (onDemandPayment : OnDemandPayment) (header : PaymentMetadata)
    (numSymbols : Nat) (quorumNumbers : List Nat) (receivedAtUnix : Int)
    (st : MeterState)
    (resLookupFail primFail carryFail : Bool)
    (odLookupFail quorumFetchFail neighborsFail addFail globalFail removeFail : Bool) :
    Except MetererError Nat × MeterState :=
  if Int.sign header.cumulativePayment = 0 then
    MeterRequestReservationPath params reservation header numSymbols quorumNumbers
      receivedAtUnix st resLookupFail primFail carryFail
  else
    MeterRequestOnDemandPath params onDemandPayment header numSymbols quorumNumbers
      receivedAtUnix st odLookupFail quorumFetchFail neighborsFail addFail globalFail removeFail

end Meterer

namespace Meterer

/-- Every value `toUint64` produces is a legal `uint64`. -/
theorem toUint64_lt (t : Int) : toUint64 t < u64 := by
  unfold toUint64 u64
  omega

/-- `GetReservationPeriod` produces a legal `uint64`. -/
theorem getReservationPeriod_lt (t : Int) (w : Nat) : GetReservationPeriod t w < u64 := by
  unfold GetReservationPeriod
  split
  · unfold u64; omega
  · exact Nat.lt_of_le_of_lt (Nat.div_le_self _ _) (toUint64_lt t)

end Meterer

namespace Meterer

/-- C5: for a positive symbol quantum `m`, `SymbolsCharged m n` equals `m`
when `n ≤ m` (in particular at `n = 0`); otherwise, when the 64-bit
computation does not overflow, it is the smallest multiple of `m` not less
than `n`; on 64-bit arithmetic overflow it saturates to `2 ^ 64 - 1`; and
the round-up laws `SymbolsCharged m (k * m) = k * m` and
`SymbolsCharged m (k * m + r) = (k + 1) * m` (`0 < r < m`) hold absent
overflow. -/
theorem symbolsCharged_spec (m : Nat) (hm : 0 < m) (hmu : m < u64) :
    (∀ n, n ≤ m → SymbolsCharged m n = m) ∧
    (∀ n, m < n → n + m - 1 < u64 →
      SymbolsCharged m n = ((n + m - 1) / m) * m ∧
      n ≤ SymbolsCharged m n ∧ m ∣ SymbolsCharged m n ∧
      (∀ x, m ∣ x → n ≤ x → SymbolsCharged m n ≤ x)) ∧
    (∀ n, m < n → n < u64 → u64 ≤ n + m - 1 → SymbolsCharged m n = u64 - 1) ∧
    (∀ k, 0 < k → k * m + m - 1 < u64 → SymbolsCharged m (k * m) = k * m) ∧
    (∀ k r, 0 < r → r < m → k * m + r + m - 1 < u64 →
      SymbolsCharged m (k * m + r) = (k + 1) * m) := by
  have base : ∀ n, n ≤ m → SymbolsCharged m n = m := by
    intro n h
    unfold SymbolsCharged
    rw [if_pos h]
  have main : ∀ n, m < n → n + m - 1 < u64 →
      SymbolsCharged m n = ((n + m - 1) / m) * m ∧
      n ≤ SymbolsCharged m n ∧ m ∣ SymbolsCharged m n ∧
      (∀ x, m ∣ x → n ≤ x → SymbolsCharged m n ≤ x) := by
    intro n h hov
    have hmod : (n + m - 1) % u64 = n + m - 1 := Nat.mod_eq_of_lt hov
    have hq1 := Nat.div_add_mod (n + m - 1) m
    have hcomm : (n + m - 1) / m * m = m * ((n + m - 1) / m) := Nat.mul_comm _ _
    have hr : (n + m - 1) % m < m := Nat.mod_lt _ hm
    have hlow : n ≤ (n + m - 1) / m * m := by omega
    have hup : (n + m - 1) / m * m ≤ n + m - 1 := Nat.div_mul_le_self _ m
    have hval : SymbolsCharged m n = ((n + m - 1) / m) * m := by
      unfold SymbolsCharged RoundUpDivide
      rw [if_neg (Nat.not_le.mpr h), hmod]
      have hsm : (n + m - 1) / m * m % u64 = (n + m - 1) / m * m :=
        Nat.mod_eq_of_lt (by omega)
      simp only [hsm]
      rw [if_neg (Nat.not_lt.mpr hlow)]
    refine ⟨hval, ?_, ?_, ?_⟩
    · omega
    · rw [hval]; exact Dvd.intro _ (Nat.mul_comm _ _)
    · intro x hdvd hnx
      obtain ⟨c, rfl⟩ := hdvd
      rw [hval]
      have hqc : (n + m - 1) / m ≤ c := by
        have h1 : n + m - 1 ≤ m * c + (m - 1) := by
          have : n ≤ m * c := hnx
          omega
        have h2 : (m * c + (m - 1)) / m = c := by
          rw [Nat.mul_add_div hm, Nat.div_eq_of_lt (by omega)]
          omega
        calc (n + m - 1) / m ≤ (m * c + (m - 1)) / m := Nat.div_le_div_right h1
          _ = c := h2
      calc (n + m - 1) / m * m ≤ c * m := Nat.mul_le_mul_right m hqc
        _ = m * c := Nat.mul_comm _ _
  refine ⟨base, main, ?_, ?_, ?_⟩
  · intro n h hnu hov
    unfold SymbolsCharged RoundUpDivide
    rw [if_neg (Nat.not_le.mpr h)]
    have hmod : (n + m - 1) % u64 = n + m - 1 - u64 := by
      rw [Nat.mod_eq_sub_mod hov, Nat.mod_eq_of_lt (by omega)]
    rw [hmod]
    have hsmall : (n + m - 1 - u64) / m = 0 := Nat.div_eq_of_lt (by omega)
    rw [hsmall]
    simp only [Nat.zero_mul, Nat.zero_mod]
    rw [if_pos (by omega)]
  · intro k hk hov
    rcases Nat.lt_or_ge 1 k with hk2 | hk1
    · have hmn : m < k * m := by
        calc m = 1 * m := (Nat.one_mul m).symm
          _ < k * m := (Nat.mul_lt_mul_right hm).mpr hk2
      have := (main (k * m) hmn hov).1
      rw [this]
      congr 1
      have heq : k * m + m - 1 = m * k + (m - 1) := by
        rw [Nat.mul_comm k m]
        omega
      rw [heq, Nat.mul_add_div hm, Nat.div_eq_of_lt (by omega)]
      omega
    · have hk1' : k = 1 := by omega
      subst hk1'
      rw [Nat.one_mul]
      exact base m (Nat.le_refl m)
  · intro k r hr hrm hov
    rcases Nat.eq_zero_or_pos k with hk0 | hk
    · subst hk0
      simp only [Nat.zero_mul, Nat.zero_add]
      rw [base r (by omega), Nat.one_mul]
    · have hmn : m < k * m + r := by
        have : m ≤ k * m := Nat.le_mul_of_pos_left m hk
        omega
      have := (main (k * m + r) hmn hov).1
      rw [this]
      have hexp : m * (k + 1) = m * k + m := Nat.mul_succ m k
      have heq : k * m + r + m - 1 = m * (k + 1) + (r - 1) := by
        rw [hexp, Nat.mul_comm k m]
        omega
      rw [heq, Nat.mul_add_div hm, Nat.div_eq_of_lt (by omega), Nat.add_zero,
        Nat.mul_comm]

/-- Witness for C5 at `m = 3`: `SymbolsCharged 3 7 = 9`, the smallest
multiple of `3` not below `7`. -/
theorem symbolsCharged_spec_witness : SymbolsCharged 3 7 = (7 + 3 - 1) / 3 * 3 :=
  ((symbolsCharged_spec 3 (by decide) (by unfold u64; decide)).2.1 7 (by decide)
    (by unfold u64; decide)).1

/-- C7 counterexample: `GetReservationPeriod` does not return `0` on a
negative timestamp; at `t = -1`, `w = 60` it returns the reinterpreted
two's-complement value `(2 ^ 64 - 1) / 60`. -/
theorem getReservationPeriod_neg_counterexample :
    GetReservationPeriod (-1) 60 = 307445734561825860 ∧
    ¬ GetReservationPeriod (-1) 60 = 0 := by
  constructor <;> decide

/-- C7 amended: `GetReservationPeriod t w` is `0` when `w = 0`, is `t / w`
(integer division) for `0 ≤ t < 2 ^ 64`, and for negative `t` in the
`int64` range is `(t + 2 ^ 64) / w` — the unsigned reinterpretation of
`t` divided by `w` — not `0`. -/
theorem getReservationPeriod_amended (t : Int) (w : Nat) :
    (w = 0 → GetReservationPeriod t w = 0) ∧
    (0 ≤ t → t < ((u64 : Nat) : Int) → GetReservationPeriod t w = t.toNat / w) ∧
    (t < 0 → -((u64 : Nat) : Int) < t →
      GetReservationPeriod t w = (t + ((u64 : Nat) : Int)).toNat / w) := by
  refine ⟨?_, ?_, ?_⟩
  · intro h; unfold GetReservationPeriod; rw [if_pos h]
  · intro h1 h2
    unfold GetReservationPeriod toUint64
    have hmod : t % ((u64 : Nat) : Int) = t := by
      unfold u64 at h2 ⊢
      omega
    split
    · rename_i hw
      subst hw
      simp [Nat.div_zero]
    · rw [hmod]
  · intro h1 h2
    unfold GetReservationPeriod toUint64
    have hmod : t % ((u64 : Nat) : Int) = t + ((u64 : Nat) : Int) := by
      unfold u64 at h2 ⊢
      omega
    split
    · rename_i hw
      subst hw
      simp [Nat.div_zero]
    · rw [hmod]

/-- Witness for C7's amended theorem at `t = -1`, `w = 60`. -/
theorem getReservationPeriod_amended_witness :
    GetReservationPeriod (-1) 60 = ((-1 : Int) + ((u64 : Nat) : Int)).toNat / 60 :=
  (getReservationPeriod_amended (-1) 60).2.2 (by decide) (by unfold u64; decide)

end Meterer

namespace Meterer

/-- C1: with the store query succeeding, `ValidatePayment` accepts exactly
when the header payment respects the on-chain deposit, the predecessor
invariant and (when a successor exists) the successor invariant; and the
three checks are applied in that order, the first failure
short-circuiting, as the equation to the nested conditional shows. -/
theorem validatePayment_spec (params : ChainParams) (header : PaymentMetadata)
    (odp : OnDemandPayment) (sc : Nat) (ledger : List (Int × Nat)) :
    ValidatePayment params header odp sc ledger false =
      (if odp.cumulativePayment < header.cumulativePayment then
        some MetererError.depositExceeded
      else if header.cumulativePayment <
          prevRecord ledger header.cumulativePayment + PaymentCharged params sc then
        some MetererError.insufficientIncrement
      else if (nextRecord ledger header.cumulativePayment).1 ≠ 0 ∧
          (nextRecord ledger header.cumulativePayment).1 < header.cumulativePayment +
            PaymentCharged params (nextRecord ledger header.cumulativePayment).2 then
        some MetererError.breakingInvariants
      else none) ∧
    (ValidatePayment params header odp sc ledger false = none ↔
      header.cumulativePayment ≤ odp.cumulativePayment ∧
      prevRecord ledger header.cumulativePayment + PaymentCharged params sc ≤
        header.cumulativePayment ∧
      ((nextRecord ledger header.cumulativePayment).1 = 0 ∨
       header.cumulativePayment +
           PaymentCharged params (nextRecord ledger header.cumulativePayment).2 ≤
         (nextRecord ledger header.cumulativePayment).1)) := by
  have hred : ValidatePayment params header odp sc ledger false =
      (if odp.cumulativePayment < header.cumulativePayment then
        some MetererError.depositExceeded
      else if header.cumulativePayment <
          prevRecord ledger header.cumulativePayment + PaymentCharged params sc then
        some MetererError.insufficientIncrement
      else if (nextRecord ledger header.cumulativePayment).1 ≠ 0 ∧
          (nextRecord ledger header.cumulativePayment).1 < header.cumulativePayment +
            PaymentCharged params (nextRecord ledger header.cumulativePayment).2 then
        some MetererError.breakingInvariants
      else none) := by
    rcases hnr : nextRecord ledger header.cumulativePayment with ⟨np, ns⟩
    simp only [ValidatePayment, GetRelevantOnDemandRecords, Bool.false_eq_true,
      if_false, hnr]
  refine ⟨hred, ?_⟩
  rw [hred]
  split_ifs with h1 h2 h3
  · simp only [false_iff]
    omega
  · simp only [false_iff]
    omega
  · simp only [false_iff]
    omega
  · simp only [true_iff]
    refine ⟨by omega, by omega, ?_⟩
    rcases Classical.em ((nextRecord ledger header.cumulativePayment).1 = 0) with h | h
    · exact Or.inl h
    · right
      have := fun hlt => h3 ⟨h, hlt⟩
      omega

end Meterer

namespace Meterer

/-- C6: when the current period (from the received-at time) is at least 1,
`ValidateReservationPeriod` holds exactly when the request period is the
current or the previous period and lies in `[startPeriod, endPeriod)`;
in particular the previous period passes (when in window) and
`currentPeriod - 2` is always rejected. -/
theorem validateReservationPeriod_spec (params : ChainParams) (res : ReservedPayment)
    (rp : Nat) (t : Int)
    (hc : 1 ≤ GetReservationPeriod t params.reservationWindow) :
    (ValidateReservationPeriod params res rp t = true ↔
      ((rp = GetReservationPeriod t params.reservationWindow ∨
        rp = GetReservationPeriod t params.reservationWindow - 1) ∧
       GetReservationPeriod (toInt64 res.startTimestamp) params.reservationWindow ≤ rp ∧
       rp < GetReservationPeriod (toInt64 res.endTimestamp) params.reservationWindow)) ∧
    (GetReservationPeriod (toInt64 res.startTimestamp) params.reservationWindow ≤
        GetReservationPeriod t params.reservationWindow - 1 →
     GetReservationPeriod t params.reservationWindow - 1 <
        GetReservationPeriod (toInt64 res.endTimestamp) params.reservationWindow →
     ValidateReservationPeriod params res
        (GetReservationPeriod t params.reservationWindow - 1) t = true) ∧
    (2 ≤ GetReservationPeriod t params.reservationWindow →
     ValidateReservationPeriod params res
        (GetReservationPeriod t params.reservationWindow - 2) t = false) := by
  have hcu : GetReservationPeriod t params.reservationWindow < u64 :=
    getReservationPeriod_lt t params.reservationWindow
  have hwrap : (GetReservationPeriod t params.reservationWindow + u64 - 1) % u64 =
      GetReservationPeriod t params.reservationWindow - 1 := by
    rw [Nat.mod_eq_sub_mod (by omega), Nat.mod_eq_of_lt (by omega)]
    omega
  have hbool : ∀ a b : Bool, (if !a || !b then false else true) = (a && b) := by
    intro a b
    cases a <;> cases b <;> rfl
  have hiff : ∀ q : Nat, ValidateReservationPeriod params res q t = true ↔
      ((q = GetReservationPeriod t params.reservationWindow ∨
        q = GetReservationPeriod t params.reservationWindow - 1) ∧
       GetReservationPeriod (toInt64 res.startTimestamp) params.reservationWindow ≤ q ∧
       q < GetReservationPeriod (toInt64 res.endTimestamp) params.reservationWindow) := by
    intro q
    simp only [ValidateReservationPeriod, hwrap]
    rw [hbool]
    simp only [Bool.and_eq_true, Bool.or_eq_true, beq_iff_eq, decide_eq_true_eq]
  refine ⟨hiff rp, ?_, ?_⟩
  · intro hs he
    exact (hiff _).mpr ⟨Or.inr rfl, hs, he⟩
  · intro h2
    have hne : ¬ (ValidateReservationPeriod params res
        (GetReservationPeriod t params.reservationWindow - 2) t = true) := by
      rw [hiff]
      intro ⟨h1, _, _⟩
      omega
    exact Bool.eq_false_iff.mpr hne

/-- Witness for C6: window 60s, received at t = 120s (current period 2),
reservation over [0s, 600s): the previous period 1 passes the check. -/
theorem validateReservationPeriod_spec_witness :
    ValidateReservationPeriod ⟨3, 10, 60, 1, 100, [0, 1]⟩ ⟨5, 0, 600, [0, 1]⟩
      (GetReservationPeriod 120 60 - 1) 120 = true :=
  (validateReservationPeriod_spec ⟨3, 10, 60, 1, 100, [0, 1]⟩ ⟨5, 0, 600, [0, 1]⟩ 1 120
    (by decide)).2.1 (by decide) (by decide)

end Meterer

namespace Meterer

/-- A successful reservation-bin update adds the delta (wrapping) and
returns the post-increment value. -/
theorem updateReservationBin_ok (bins : Nat → Nat) (period delta : Nat) :
    UpdateReservationBin bins period delta false =
      some ((bins period + delta) % u64,
        fun p => if p = period then (bins period + delta) % u64 else bins p) := rfl

/-- A failed reservation-bin update writes nothing. -/
theorem updateReservationBin_fail (bins : Nat → Nat) (period delta : Nat) :
    UpdateReservationBin bins period delta true = none := rfl

/-- C2: with the store add succeeding and the arithmetic in range, the
reservation-bin decision is exactly the four-way split of the claim: accept
with no further write iff the new usage `U` stays within `L`; reject as
bin-already-filled iff the bin held at least `L` before the add; accept and
carry the excess `U - L` into the bin two periods ahead iff
`L < U ≤ 2 L`, the pre-add usage was below `L`, and `requestPeriod + 2`
is at most the end period; reject as overflow otherwise. -/
theorem incrementBinUsage_spec (params : ChainParams) (res : ReservedPayment)
    (sc rp : Nat) (bins : Nat → Nat)
    (hbins : ∀ p, bins p < u64)
    (hU : bins rp + sc < u64)
    (hL : 2 * (res.symbolsPerSecond * params.reservationWindow) < u64)
    (hrp : rp + 2 < u64) :
    (bins rp + sc ≤ res.symbolsPerSecond * params.reservationWindow →
      (IncrementBinUsage params res sc rp bins false false).1 = none ∧
      (IncrementBinUsage params res sc rp bins false false).2 rp = bins rp + sc ∧
      (∀ p, p ≠ rp → (IncrementBinUsage params res sc rp bins false false).2 p = bins p)) ∧
    (res.symbolsPerSecond * params.reservationWindow < bins rp + sc →
     res.symbolsPerSecond * params.reservationWindow ≤ bins rp + sc - sc →
      (IncrementBinUsage params res sc rp bins false false).1 = some .binAlreadyFilled ∧
      (IncrementBinUsage params res sc rp bins false false).2 rp = bins rp + sc ∧
      (∀ p, p ≠ rp → (IncrementBinUsage params res sc rp bins false false).2 p = bins p)) ∧
    (res.symbolsPerSecond * params.reservationWindow < bins rp + sc →
     bins rp + sc - sc < res.symbolsPerSecond * params.reservationWindow →
     bins rp + sc ≤ 2 * (res.symbolsPerSecond * params.reservationWindow) →
     rp + 2 ≤ GetReservationPeriod (toInt64 res.endTimestamp) params.reservationWindow →
      (IncrementBinUsage params res sc rp bins false false).1 = none ∧
      (IncrementBinUsage params res sc rp bins false false).2 rp = bins rp + sc ∧
      (IncrementBinUsage params res sc rp bins false false).2 (rp + 2) =
        (bins (rp + 2) + (bins rp + sc - res.symbolsPerSecond * params.reservationWindow)) % u64 ∧
      (∀ p, p ≠ rp → p ≠ rp + 2 →
        (IncrementBinUsage params res sc rp bins false false).2 p = bins p)) ∧
    (res.symbolsPerSecond * params.reservationWindow < bins rp + sc →
     bins rp + sc - sc < res.symbolsPerSecond * params.reservationWindow →
     ¬(bins rp + sc ≤ 2 * (res.symbolsPerSecond * params.reservationWindow) ∧
       rp + 2 ≤ GetReservationPeriod (toInt64 res.endTimestamp) params.reservationWindow) →
      (IncrementBinUsage params res sc rp bins false false).1 = some .overflowExceedsBinLimit ∧
      (IncrementBinUsage params res sc rp bins false false).2 rp = bins rp + sc ∧
      (∀ p, p ≠ rp → (IncrementBinUsage params res sc rp bins false false).2 p = bins p)) ∧
    ((IncrementBinUsage params res sc rp bins false false).1 = none →
      bins rp + sc ≤ res.symbolsPerSecond * params.reservationWindow ∨
      (res.symbolsPerSecond * params.reservationWindow < bins rp + sc ∧
       bins rp + sc - sc < res.symbolsPerSecond * params.reservationWindow ∧
       bins rp + sc ≤ 2 * (res.symbolsPerSecond * params.reservationWindow) ∧
       rp + 2 ≤ GetReservationPeriod (toInt64 res.endTimestamp) params.reservationWindow)) ∧
    ((IncrementBinUsage params res sc rp bins false false).1 = some .binAlreadyFilled →
      res.symbolsPerSecond * params.reservationWindow < bins rp + sc ∧
      res.symbolsPerSecond * params.reservationWindow ≤ bins rp + sc - sc) ∧
    ((IncrementBinUsage params res sc rp bins false false).1 = some .overflowExceedsBinLimit →
      res.symbolsPerSecond * params.reservationWindow < bins rp + sc ∧
      bins rp + sc - sc < res.symbolsPerSecond * params.reservationWindow ∧
      ¬(bins rp + sc ≤ 2 * (res.symbolsPerSecond * params.reservationWindow) ∧
        rp + 2 ≤ GetReservationPeriod (toInt64 res.endTimestamp) params.reservationWindow)) := by
  have hmodU : (bins rp + sc) % u64 = bins rp + sc := Nat.mod_eq_of_lt hU
  have hLdef : GetReservationBinLimit params res =
      res.symbolsPerSecond * params.reservationWindow := by
    unfold GetReservationBinLimit
    exact Nat.mod_eq_of_lt (by omega)
  have hsub : (bins rp + sc + u64 - sc) % u64 = bins rp := by
    have h1 : bins rp + sc + u64 - sc = bins rp + u64 := by omega
    rw [h1, Nat.mod_eq_sub_mod (Nat.le_add_left u64 (bins rp)), Nat.add_sub_cancel,
      Nat.mod_eq_of_lt (hbins rp)]
  have hmod2L : (2 * (res.symbolsPerSecond * params.reservationWindow)) % u64 =
      2 * (res.symbolsPerSecond * params.reservationWindow) := Nat.mod_eq_of_lt hL
  have hmodrp : (rp + 2) % u64 = rp + 2 := Nat.mod_eq_of_lt hrp
  have c1 : bins rp + sc ≤ res.symbolsPerSecond * params.reservationWindow →
      (IncrementBinUsage params res sc rp bins false false).1 = none ∧
      (IncrementBinUsage params res sc rp bins false false).2 rp = bins rp + sc ∧
      (∀ p, p ≠ rp → (IncrementBinUsage params res sc rp bins false false).2 p = bins p) := by
    intro h
    simp only [IncrementBinUsage, updateReservationBin_ok, hmodU, hLdef, hsub, hmod2L, hmodrp]
    rw [if_pos h]
    exact ⟨rfl, by simp, fun p hp => by simp [hp]⟩
  have c2 : res.symbolsPerSecond * params.reservationWindow < bins rp + sc →
      res.symbolsPerSecond * params.reservationWindow ≤ bins rp + sc - sc →
      (IncrementBinUsage params res sc rp bins false false).1 = some .binAlreadyFilled ∧
      (IncrementBinUsage params res sc rp bins false false).2 rp = bins rp + sc ∧
      (∀ p, p ≠ rp → (IncrementBinUsage params res sc rp bins false false).2 p = bins p) := by
    intro h1 h2
    simp only [IncrementBinUsage, updateReservationBin_ok, hmodU, hLdef, hsub, hmod2L, hmodrp]
    rw [if_neg (by omega), if_pos (by omega)]
    exact ⟨rfl, by simp, fun p hp => by simp [hp]⟩
  have c3 : res.symbolsPerSecond * params.reservationWindow < bins rp + sc →
      bins rp + sc - sc < res.symbolsPerSecond * params.reservationWindow →
      bins rp + sc ≤ 2 * (res.symbolsPerSecond * params.reservationWindow) →
      rp + 2 ≤ GetReservationPeriod (toInt64 res.endTimestamp) params.reservationWindow →
      (IncrementBinUsage params res sc rp bins false false).1 = none ∧
      (IncrementBinUsage params res sc rp bins false false).2 rp = bins rp + sc ∧
      (IncrementBinUsage params res sc rp bins false false).2 (rp + 2) =
        (bins (rp + 2) + (bins rp + sc - res.symbolsPerSecond * params.reservationWindow)) % u64 ∧
      (∀ p, p ≠ rp → p ≠ rp + 2 →
        (IncrementBinUsage params res sc rp bins false false).2 p = bins p) := by
    intro h1 h2 h3 h4
    simp only [IncrementBinUsage, updateReservationBin_ok, hmodU, hLdef, hsub, hmod2L, hmodrp]
    rw [if_neg (by omega), if_neg (by omega), if_pos ⟨h3, h4⟩]
    have hne : rp + 2 ≠ rp := by omega
    refine ⟨rfl, ?_, ?_, ?_⟩
    · simp [hne]
    · simp [hne]
    · intro p hp1 hp2
      simp [hp1, hp2]
  have c4 : res.symbolsPerSecond * params.reservationWindow < bins rp + sc →
      bins rp + sc - sc < res.symbolsPerSecond * params.reservationWindow →
      ¬(bins rp + sc ≤ 2 * (res.symbolsPerSecond * params.reservationWindow) ∧
        rp + 2 ≤ GetReservationPeriod (toInt64 res.endTimestamp) params.reservationWindow) →
      (IncrementBinUsage params res sc rp bins false false).1 = some .overflowExceedsBinLimit ∧
      (IncrementBinUsage params res sc rp bins false false).2 rp = bins rp + sc ∧
      (∀ p, p ≠ rp → (IncrementBinUsage params res sc rp bins false false).2 p = bins p) := by
    intro h1 h2 h3
    simp only [IncrementBinUsage, updateReservationBin_ok, hmodU, hLdef, hsub, hmod2L, hmodrp]
    rw [if_neg (by omega), if_neg (by omega), if_neg h3]
    exact ⟨rfl, by simp, fun p hp => by simp [hp]⟩
  refine ⟨c1, c2, c3, c4, ?_, ?_, ?_⟩
  · intro h
    by_cases hA : bins rp + sc ≤ res.symbolsPerSecond * params.reservationWindow
    · exact Or.inl hA
    · by_cases hB : res.symbolsPerSecond * params.reservationWindow ≤ bins rp + sc - sc
      · rw [(c2 (by omega) hB).1] at h
        exact absurd h (by simp)
      · by_cases hC : bins rp + sc ≤ 2 * (res.symbolsPerSecond * params.reservationWindow) ∧
            rp + 2 ≤ GetReservationPeriod (toInt64 res.endTimestamp) params.reservationWindow
        · exact Or.inr ⟨by omega, by omega, hC.1, hC.2⟩
        · rw [(c4 (by omega) (by omega) hC).1] at h
          exact absurd h (by simp)
  · intro h
    by_cases hA : bins rp + sc ≤ res.symbolsPerSecond * params.reservationWindow
    · rw [(c1 hA).1] at h
      exact absurd h (by simp)
    · by_cases hB : res.symbolsPerSecond * params.reservationWindow ≤ bins rp + sc - sc
      · exact ⟨by omega, hB⟩
      · by_cases hC : bins rp + sc ≤ 2 * (res.symbolsPerSecond * params.reservationWindow) ∧
            rp + 2 ≤ GetReservationPeriod (toInt64 res.endTimestamp) params.reservationWindow
        · rw [(c3 (by omega) (by omega) hC.1 hC.2).1] at h
          exact absurd h (by simp)
        · rw [(c4 (by omega) (by omega) hC).1] at h
          simp only [Option.some.injEq] at h
          cases h
  · intro h
    by_cases hA : bins rp + sc ≤ res.symbolsPerSecond * params.reservationWindow
    · rw [(c1 hA).1] at h
      exact absurd h (by simp)
    · by_cases hB : res.symbolsPerSecond * params.reservationWindow ≤ bins rp + sc - sc
      · rw [(c2 (by omega) hB).1] at h
        simp only [Option.some.injEq] at h
        cases h
      · by_cases hC : bins rp + sc ≤ 2 * (res.symbolsPerSecond * params.reservationWindow) ∧
            rp + 2 ≤ GetReservationPeriod (toInt64 res.endTimestamp) params.reservationWindow
        · rw [(c3 (by omega) (by omega) hC.1 hC.2).1] at h
          exact absurd h (by simp)
        · exact ⟨by omega, by omega, hC⟩

/-- Witness for C2: limit 300 (5 symbols/s over a 60s window), empty bin,
charge 9: accepted. -/
theorem incrementBinUsage_spec_witness :
    (IncrementBinUsage ⟨3, 10, 60, 1, 100, [0, 1]⟩ ⟨5, 0, 600, [0, 1]⟩ 9 0
      (fun _ => 0) false false).1 = none :=
  ((incrementBinUsage_spec ⟨3, 10, 60, 1, 100, [0, 1]⟩ ⟨5, 0, 600, [0, 1]⟩ 9 0 (fun _ => 0)
    (by intro p; show (0 : Nat) < u64; decide) (by decide) (by decide) (by decide)).1
    (by decide)).1

/-- C9: when the primary increment succeeds, the overflow-carry branch is
taken, and the carry write fails, `IncrementBinUsage` surfaces the store
error and the primary bin retains the full `symbolsCharged` that was
added; no rollback happens. -/
theorem incrementBinUsage_carry_fail (params : ChainParams) (res : ReservedPayment)
    (sc rp : Nat) (bins : Nat → Nat)
    (hbins : ∀ p, bins p < u64)
    (hU : bins rp + sc < u64)
    (hL : 2 * (res.symbolsPerSecond * params.reservationWindow) < u64)
    (hrp : rp + 2 < u64)
    (h1 : res.symbolsPerSecond * params.reservationWindow < bins rp + sc)
    (h2 : bins rp + sc - sc < res.symbolsPerSecond * params.reservationWindow)
    (h3 : bins rp + sc ≤ 2 * (res.symbolsPerSecond * params.reservationWindow))
    (h4 : rp + 2 ≤ GetReservationPeriod (toInt64 res.endTimestamp) params.reservationWindow) :
    (IncrementBinUsage params res sc rp bins false true).1 = some .storeErr ∧
    (IncrementBinUsage params res sc rp bins false true).2 rp = bins rp + sc ∧
    (∀ p, p ≠ rp → (IncrementBinUsage params res sc rp bins false true).2 p = bins p) := by
  have hmodU : (bins rp + sc) % u64 = bins rp + sc := Nat.mod_eq_of_lt hU
  have hLdef : GetReservationBinLimit params res =
      res.symbolsPerSecond * params.reservationWindow := by
    unfold GetReservationBinLimit
    exact Nat.mod_eq_of_lt (by omega)
  have hsub : (bins rp + sc + u64 - sc) % u64 = bins rp := by
    have he : bins rp + sc + u64 - sc = bins rp + u64 := by omega
    rw [he, Nat.mod_eq_sub_mod (Nat.le_add_left u64 (bins rp)), Nat.add_sub_cancel,
      Nat.mod_eq_of_lt (hbins rp)]
  have hmod2L : (2 * (res.symbolsPerSecond * params.reservationWindow)) % u64 =
      2 * (res.symbolsPerSecond * params.reservationWindow) := Nat.mod_eq_of_lt hL
  have hmodrp : (rp + 2) % u64 = rp + 2 := Nat.mod_eq_of_lt hrp
  simp only [IncrementBinUsage, updateReservationBin_ok, updateReservationBin_fail,
    hmodU, hLdef, hsub, hmod2L, hmodrp]
  rw [if_neg (by omega), if_neg (by omega), if_pos ⟨h3, h4⟩]
  exact ⟨rfl, by simp, fun p hp => by simp [hp]⟩

/-- Witness for C9: bin preloaded at 295 (limit 300), charge 21, carry
write fails: the store error is surfaced. -/
theorem incrementBinUsage_carry_fail_witness :
    (IncrementBinUsage ⟨3, 10, 60, 1, 100, [0, 1]⟩ ⟨5, 0, 600, [0, 1]⟩ 21 0
      (fun _ => 295) false true).1 = some .storeErr :=
  (incrementBinUsage_carry_fail ⟨3, 10, 60, 1, 100, [0, 1]⟩ ⟨5, 0, 600, [0, 1]⟩ 21 0
    (fun _ => 295) (by intro p; show (295 : Nat) < u64; decide) (by decide) (by decide)
    (by decide) (by decide) (by decide) (by decide) (by decide)).1

end Meterer

namespace Meterer

/-- A successful global-bin update adds the delta (wrapping) and returns
the post-increment value. -/
theorem updateGlobalBin_ok (gbins : Nat → Nat) (period delta : Nat) :
    UpdateGlobalBin gbins period delta false =
      some ((gbins period + delta) % u64,
        fun p => if p = period then (gbins period + delta) % u64 else gbins p) := rfl

/-- A failed global-bin update writes nothing. -/
theorem updateGlobalBin_fail (gbins : Nat → Nat) (period delta : Nat) :
    UpdateGlobalBin gbins period delta true = none := rfl

/-- A successful ledger insert prepends the entry (no duplicate present). -/
theorem addOnDemandPayment_ok (ledger : List (Int × Nat)) (cp : Int) (sc : Nat)
    (h : ledger.any (fun e => e.1 == cp) = false) :
    AddOnDemandPayment ledger cp sc false = some ((cp, sc) :: ledger) := by
  unfold AddOnDemandPayment
  rw [Bool.false_or, h]
  rfl

/-- A successful ledger delete removes exactly the entries with the given
cumulative payment. -/
theorem removeOnDemandPayment_ok (ledger : List (Int × Nat)) (cp : Int) :
    RemoveOnDemandPayment ledger cp false =
      some (ledger.filter (fun e => e.1 != cp)) := rfl

/-- A failed ledger delete removes nothing. -/
theorem removeOnDemandPayment_fail (ledger : List (Int × Nat)) (cp : Int) :
    RemoveOnDemandPayment ledger cp true = none := rfl

/-- C3: once the ledger insert has succeeded, a global-bin increment that
fails or exceeds `globalSymbolsPerSecond * globalRatePeriodInterval`
triggers the compensating delete of the ledger entry just inserted: with
the delete succeeding the request is rejected as rate-limited and the
account's ledger is exactly as before the request (so the same payment
revalidates); with the delete failing, the delete's error is returned
instead and the inserted entry remains. -/
theorem serveOnDemandRequest_compensation (params : ChainParams)
    (header : PaymentMetadata) (odp : OnDemandPayment) (sc : Nat)
    (quorums : List Nat) (recvAt : Int) (st : ODState) (gf : Bool)
    (hq : ValidateQuorum quorums params.onDemandQuorumNumbers = true)
    (hv : ValidatePayment params header odp sc st.ledger false = none)
    (hadd : st.ledger.any (fun e => e.1 == header.cumulativePayment) = false)
    (hover : gf = true ∨
      (params.globalSymbolsPerSecond * params.globalRatePeriodInterval) % u64 <
        (st.globalBins (GetReservationPeriod recvAt params.globalRatePeriodInterval) + sc) % u64) :
    ((ServeOnDemandRequest params header odp sc quorums recvAt st
        false false false gf false).1 =
      some (.globalRateLimited
        (if gf = true then GlobalBinError.storeErr else GlobalBinError.usageOverflow)) ∧
     (ServeOnDemandRequest params header odp sc quorums recvAt st
        false false false gf false).2.ledger = st.ledger ∧
     ValidatePayment params header odp sc
       (ServeOnDemandRequest params header odp sc quorums recvAt st
         false false false gf false).2.ledger false = none) ∧
    ((ServeOnDemandRequest params header odp sc quorums recvAt st
        false false false gf true).1 = some .storeDeleteErr ∧
     (ServeOnDemandRequest params header odp sc quorums recvAt st
        false false false gf true).2.ledger =
       (header.cumulativePayment, sc) :: st.ledger) := by
  have hfilter : ((header.cumulativePayment, sc) :: st.ledger).filter
      (fun e => e.1 != header.cumulativePayment) = st.ledger := by
    rw [List.filter_cons_of_neg (by simp)]
    exact List.filter_eq_self.mpr
      (fun e he => by simpa using List.any_eq_false.mp hadd e he)
  cases gf
  · rcases hover with h | h
    · cases h
    · constructor
      · refine ⟨?_, ?_, ?_⟩ <;>
        · simp only [ServeOnDemandRequest, Bool.false_eq_true, if_false, hq,
            Bool.not_true, hv, addOnDemandPayment_ok _ _ _ hadd,
            IncrementGlobalBinUsage, updateGlobalBin_ok, if_pos h,
            removeOnDemandPayment_ok, hfilter, if_true]
          try exact hv
      · constructor <;>
          simp only [ServeOnDemandRequest, Bool.false_eq_true, if_false, hq,
            Bool.not_true, hv, addOnDemandPayment_ok _ _ _ hadd,
            IncrementGlobalBinUsage, updateGlobalBin_ok, if_pos h,
            removeOnDemandPayment_fail]
  · constructor
    · refine ⟨?_, ?_, ?_⟩ <;>
      · simp only [ServeOnDemandRequest, Bool.false_eq_true, if_false, hq,
          Bool.not_true, hv, addOnDemandPayment_ok _ _ _ hadd,
          IncrementGlobalBinUsage, updateGlobalBin_fail,
          removeOnDemandPayment_ok, hfilter, if_true]
        try exact hv
    · constructor <;>
        simp only [ServeOnDemandRequest, Bool.false_eq_true, if_false, hq,
          Bool.not_true, hv, addOnDemandPayment_ok _ _ _ hadd,
          IncrementGlobalBinUsage, updateGlobalBin_fail,
          removeOnDemandPayment_fail]

/-- Witness for C3: global cap 100 symbols per period, empty ledger and
bins, charge 201: the insert lands, the global increment overflows, the
compensating delete restores the empty ledger. -/
theorem serveOnDemandRequest_compensation_witness :
    (ServeOnDemandRequest ⟨3, 10, 1, 1, 100, [0, 1]⟩ ⟨0, 3000⟩ ⟨100000⟩ 201 [0] 0
       ⟨[], fun _ => 0⟩ false false false false false).1 =
      some (.globalRateLimited GlobalBinError.usageOverflow) ∧
    (ServeOnDemandRequest ⟨3, 10, 1, 1, 100, [0, 1]⟩ ⟨0, 3000⟩ ⟨100000⟩ 201 [0] 0
       ⟨[], fun _ => 0⟩ false false false false false).2.ledger = [] := by
  have h := serveOnDemandRequest_compensation ⟨3, 10, 1, 1, 100, [0, 1]⟩ ⟨0, 3000⟩ ⟨100000⟩
    201 [0] 0 ⟨[], fun _ => 0⟩ false (by decide) (by decide) (by decide)
    (Or.inr (by show 100 * 1 % u64 < ((fun _ => 0) 0 + 201) % u64; decide))
  exact ⟨h.1.1, h.1.2.1⟩

end Meterer

namespace Meterer

/-- A successful neighbor query returns the strict neighbors. -/
theorem getRelevantOnDemandRecords_ok (ledger : List (Int × Nat)) (cp : Int) :
    GetRelevantOnDemandRecords ledger cp false =
      some (prevRecord ledger cp, nextRecord ledger cp) := rfl

/-- The reservation path only ever reports the charged symbols on
success. -/
theorem meterRequestReservationPath_ok_val (params : ChainParams)
    (res : ReservedPayment) (header : PaymentMetadata) (numSymbols : Nat)
    (quorums : List Nat) (recvAt : Int) (st : MeterState) (rlf pf cf : Bool) :
    ∀ v, (MeterRequestReservationPath params res header numSymbols quorums recvAt st
        rlf pf cf).1 = .ok v →
      v = SymbolsCharged params.minNumSymbols numSymbols := by
  intro v hv
  unfold MeterRequestReservationPath at hv
  split at hv
  · exact absurd hv (by simp)
  · split at hv
    · exact absurd hv (by simp)
    · simp only [Except.ok.injEq] at hv
      exact hv.symm

/-- The on-demand path only ever reports the charged symbols on
success. -/
theorem meterRequestOnDemandPath_ok_val (params : ChainParams)
    (odp : OnDemandPayment) (header : PaymentMetadata) (numSymbols : Nat)
    (quorums : List Nat) (recvAt : Int) (st : MeterState)
    (olf qff nf af gfl rmf : Bool) :
    ∀ v, (MeterRequestOnDemandPath params odp header numSymbols quorums recvAt st
        olf qff nf af gfl rmf).1 = .ok v →
      v = SymbolsCharged params.minNumSymbols numSymbols := by
  intro v hv
  unfold MeterRequestOnDemandPath at hv
  split at hv
  · exact absurd hv (by simp)
  · split at hv
    · exact absurd hv (by simp)
    · simp only [Except.ok.injEq] at hv
      exact hv.symm

/-- C4: for a non-negative cumulative payment, `MeterRequest` takes the
reservation path exactly when the payment is zero and the on-demand path
exactly when it is strictly positive, and any successful run returns
exactly `SymbolsCharged numSymbols`. -/
theorem meterRequest_routing (params : ChainParams) (res : ReservedPayment)
    (odp : OnDemandPayment) (header : PaymentMetadata) (numSymbols : Nat)
    (quorums : List Nat) (recvAt : Int) (st : MeterState)
    (rlf pf cf olf qff nf af gfl rmf : Bool)
    (hcp : 0 ≤ header.cumulativePayment) :
    (header.cumulativePayment = 0 →
      MeterRequest params res odp header numSymbols quorums recvAt st
          rlf pf cf olf qff nf af gfl rmf =
        MeterRequestReservationPath params res header numSymbols quorums recvAt st
          rlf pf cf) ∧
    (0 < header.cumulativePayment →
      MeterRequest params res odp header numSymbols quorums recvAt st
          rlf pf cf olf qff nf af gfl rmf =
        MeterRequestOnDemandPath params odp header numSymbols quorums recvAt st
          olf qff nf af gfl rmf) ∧
    (∀ v, (MeterRequest params res odp header numSymbols quorums recvAt st
        rlf pf cf olf qff nf af gfl rmf).1 = .ok v →
      v = SymbolsCharged params.minNumSymbols numSymbols) := by
  refine ⟨?_, ?_, ?_⟩
  · intro h
    unfold MeterRequest
    rw [if_pos (Int.sign_eq_zero_iff_zero.mpr h)]
  · intro h
    unfold MeterRequest
    rw [if_neg (fun hs => by have := Int.sign_eq_zero_iff_zero.mp hs; omega)]
  · intro v hv
    unfold MeterRequest at hv
    split at hv
    · exact meterRequestReservationPath_ok_val params res header numSymbols quorums
        recvAt st rlf pf cf v hv
    · exact meterRequestOnDemandPath_ok_val params odp header numSymbols quorums
        recvAt st olf qff nf af gfl rmf v hv

/-- Witness for C4: a zero cumulative payment routes to the reservation
path. -/
theorem meterRequest_routing_witness :
    MeterRequest ⟨3, 10, 60, 1, 100, [0, 1]⟩ ⟨5, 0, 600, [0, 1]⟩ ⟨100⟩ ⟨0, 0⟩ 7 [0] 30
        ⟨fun _ => 0, [], fun _ => 0⟩ false false false false false false false false false =
      MeterRequestReservationPath ⟨3, 10, 60, 1, 100, [0, 1]⟩ ⟨5, 0, 600, [0, 1]⟩ ⟨0, 0⟩ 7
        [0] 30 ⟨fun _ => 0, [], fun _ => 0⟩ false false false :=
  (meterRequest_routing ⟨3, 10, 60, 1, 100, [0, 1]⟩ ⟨5, 0, 600, [0, 1]⟩ ⟨100⟩ ⟨0, 0⟩ 7 [0] 30
    ⟨fun _ => 0, [], fun _ => 0⟩ false false false false false false false false false
    (by decide)).1 (by decide)

/-- C10: a strictly negative cumulative payment has non-zero sign, so it is
routed to the on-demand path; there (with the quorum check passing and the
store reachable) it fails the predecessor invariant, because the ledger
neighbors of a negative payment are absent (reported as zero) and the
charge is non-negative. -/
theorem meterRequest_negative_payment (params : ChainParams) (res : ReservedPayment)
    (odp : OnDemandPayment) (header : PaymentMetadata) (numSymbols : Nat)
    (quorums : List Nat) (recvAt : Int) (st : MeterState)
    (rlf pf cf af gfl rmf : Bool)
    (hneg : header.cumulativePayment < 0)
    (hdep : 0 ≤ odp.cumulativePayment)
    (hq : ValidateQuorum quorums params.onDemandQuorumNumbers = true)
    (hpr : 0 < params.pricePerSymbol)
    (hpru : params.pricePerSymbol < 9223372036854775808)
    (hledg : ∀ e ∈ st.ledger, 0 ≤ e.1) :
    (MeterRequest params res odp header numSymbols quorums recvAt st
        rlf pf cf false false false af gfl rmf =
      MeterRequestOnDemandPath params odp header numSymbols quorums recvAt st
        false false false af gfl rmf) ∧
    (MeterRequest params res odp header numSymbols quorums recvAt st
        rlf pf cf false false false af gfl rmf).1 = .error .insufficientIncrement := by
  have hroute : MeterRequest params res odp header numSymbols quorums recvAt st
      rlf pf cf false false false af gfl rmf =
      MeterRequestOnDemandPath params odp header numSymbols quorums recvAt st
        false false false af gfl rmf := by
    unfold MeterRequest
    rw [if_neg (fun hs => by have := Int.sign_eq_zero_iff_zero.mp hs; omega)]
  have hprev : prevRecord st.ledger header.cumulativePayment = 0 := by
    unfold prevRecord
    rw [List.filter_eq_nil_iff.mpr (fun e he => by
      have := hledg e he
      simp only [decide_eq_true_eq]
      omega)]
    rfl
  have hprice : toInt64 params.pricePerSymbol = (params.pricePerSymbol : Int) := by
    unfold toInt64 u64
    rw [Nat.mod_eq_of_lt (by omega), if_pos (by omega)]
  have hpc : 0 ≤ PaymentCharged params (SymbolsCharged params.minNumSymbols numSymbols) := by
    unfold PaymentCharged
    rw [hprice]
    positivity
  have hvp : ValidatePayment params header odp
      (SymbolsCharged params.minNumSymbols numSymbols) st.ledger false =
      some .insufficientIncrement := by
    unfold ValidatePayment
    rw [if_neg (by omega)]
    simp only [getRelevantOnDemandRecords_ok]
    rcases hnr : nextRecord st.ledger header.cumulativePayment with ⟨np, ns⟩
    simp only [hnr]
    rw [if_pos (by rw [hprev]; omega)]
  refine ⟨hroute, ?_⟩
  rw [hroute]
  simp only [MeterRequestOnDemandPath, Bool.false_eq_true, if_false,
    ServeOnDemandRequest, hq, Bool.not_true, hvp]

/-- Witness for C10: cumulative payment `-5` on an empty ledger is rejected
with the predecessor-invariant error. -/
theorem meterRequest_negative_payment_witness :
    (MeterRequest ⟨3, 10, 60, 1, 100, [0, 1]⟩ ⟨5, 0, 600, [0, 1]⟩ ⟨100⟩ ⟨0, -5⟩ 7 [0] 30
        ⟨fun _ => 0, [], fun _ => 0⟩ false false false false false false false false
        false).1 = .error .insufficientIncrement :=
  (meterRequest_negative_payment ⟨3, 10, 60, 1, 100, [0, 1]⟩ ⟨5, 0, 600, [0, 1]⟩ ⟨100⟩
    ⟨0, -5⟩ 7 [0] 30 ⟨fun _ => 0, [], fun _ => 0⟩ false false false false false false
    (by decide) (by decide) (by decide) (by decide) (by decide)
    (by intro e he; simp at he)).2

end Meterer
